import Mathlib

/-!
Shallow embedding of `src/main.py` ("Zeta-frame pipeline: video management
system for adaptive bitrate compression").

Modelling conventions:
* Python `float` timestamps (`time.time()`) are modelled as exact rationals
  (`Rat`); every operation that reads the clock takes the current time `now`
  as an explicit argument (the two `time.time()` reads inside `schedule`
  return the same instant).
* Python `dict`s are modelled as insertion-ordered association lists
  (`lookupAssoc` / `setAssoc` reproduce `d.get` / `d[k] = v`); Python `set`s
  as duplicate-free lists (`insertSet` reproduces `s.add`).
* `hashlib.sha256(raw).hexdigest()` (an external library call) is modelled by
  `sha256Hex`, an injective tagging function: the claims under study rely
  only on the digest being a deterministic function of its input.
* A generated job id `f"slot_{self._slot_counter}_{uuid.uuid4().hex[:8]}"` is
  modelled as the pair `(counter, uuidHex)`: the rendered string determines
  the pair (the counter is the maximal digit run between the fixed prefix and
  the fixed-length 8-character hex suffix), so keying the job dict by the
  pair is faithful.  The random `uuid.uuid4().hex[:8]` suffix is an explicit
  input of `schedule`.
-/

namespace VMS

unseal Rat.sub

/-- Python `d.get k` on an insertion-ordered association list (Python `dict.get`). -/
def lookupAssoc {α β : Type} [DecidableEq α] (l : List (α × β)) (k : α) : Option β :=
  match l with
  | [] => none
  | (k', v) :: rest => if k' = k then some v else lookupAssoc rest k

/-- Python `d[k] = v` on an insertion-ordered association list: overwrite in place if
the key is present, else append (Python dict insertion-order semantics). -/
def setAssoc {α β : Type} [DecidableEq α] (l : List (α × β)) (k : α) (v : β) : List (α × β) :=
  match l with
  | [] => [(k, v)]
  | (k', v') :: rest => if k' = k then (k, v) :: rest else (k', v') :: setAssoc rest k v

/-- Python `s.add x` on a duplicate-free list modelling a Python `set`. -/
def insertSet (l : List String) (x : String) : List String :=
  if x ∈ l then l else l ++ [x]

/-- Models `hashlib.sha256(s.encode()).hexdigest()`: an external
collision-resistant digest, represented as an injective tagging function
(the development uses only that the digest is a deterministic function of
its input). -/
def sha256Hex (s : String) : String :=
  "sha256(" ++ s ++ ")"

/-- Embeds `CompressionProfile` dataclass (src/main.py lines 44-52). -/
structure CompressionProfile where
  profile_id : String
  max_bitrate_kbps : Int
  keyframe_interval : Int
  codec_id : Int
  active : Bool
  created_at : Rat
deriving Repr, DecidableEq

/-- A job id `f"slot_{counter}_{uuid8}"`, modelled as the (counter, uuid
suffix) pair that the rendered string determines. -/
abbrev SlotId := Nat × String

/-- Embeds `EncodeJob` dataclass (src/main.py lines 76-85). -/
structure EncodeJob where
  job_id : SlotId
  content_hash : String
  tier_index : Int
  scheduled_at : Rat
  nonce : Nat
  fulfilled : Bool
  fulfilled_at : Option Rat
deriving Repr, DecidableEq

/-- Embeds `TierManager` state (src/main.py lines 152-158). -/
structure TierManager where
  max_tiers : Int
  tier_bitrate_kbps : List Int
deriving Repr, DecidableEq

/-- Python `lst[:n]` for an `int` slice bound `n` (negative bounds count from
the end, clamped at zero). -/
def pySlicePrefix (l : List Int) (n : Int) : List Int :=
  if 0 ≤ n then l.take n.toNat else l.take ((l.length : Int) + n).toNat

/-- Embeds `TierManager._rebuild_default_tiers` (src/main.py lines 160-162). -/
def rebuild_default_tiers (max_tiers : Int) : List Int :=
  pySlicePrefix ([400, 800, 1200, 2400, 4800, 8000, 12000, 18000] ++ [22000, 25000]) max_tiers

/-- Embeds `TierManager.__init__` (src/main.py lines 155-158). -/
def TierManager.init (max_tiers : Int) : TierManager :=
  { max_tiers := max_tiers, tier_bitrate_kbps := rebuild_default_tiers max_tiers }

/-- Embeds `TierManager.get_tier_count` (src/main.py lines 164-165). -/
def TierManager.get_tier_count (t : TierManager) : Nat :=
  t.tier_bitrate_kbps.length

/-- Embeds `TierManager.get_bitrate_for_tier` (src/main.py lines 167-170). -/
def TierManager.get_bitrate_for_tier (t : TierManager) (tier_index : Int) : Int :=
  if 0 ≤ tier_index ∧ tier_index < (t.tier_bitrate_kbps.length : Int) then
    t.tier_bitrate_kbps.getD tier_index.toNat 0
  else 0

/-- Embeds `TierManager.set_tier_bitrate` (src/main.py lines 172-180): bounds-check
index and kbps, pad with `MIN_BITRATE_KBPS = 256` placeholders up to the
index (the `while` loop), then set the slot. -/
def TierManager.set_tier_bitrate (t : TierManager) (tier_index kbps : Int) : Bool × TierManager :=
  if tier_index < 0 ∨ t.max_tiers ≤ tier_index then (false, t)
  else if kbps < 256 ∨ 25000 < kbps then (false, t)
  else
    let padded := t.tier_bitrate_kbps ++
      List.replicate (tier_index.toNat + 1 - t.tier_bitrate_kbps.length) 256
    (true, { t with tier_bitrate_kbps := padded.set tier_index.toNat kbps })

/-- Embeds `ProfileStore` state (src/main.py lines 191-197). -/
structure ProfileStore where
  max_profiles : Int
  by_hash : List (String × CompressionProfile)
  order : List String
deriving Repr, DecidableEq

/-- Embeds `ProfileStore.__init__` (src/main.py lines 194-197). -/
def ProfileStore.init (max_profiles : Int) : ProfileStore :=
  { max_profiles := max_profiles, by_hash := [], order := [] }

/-- Embeds `ProfileStore._profile_key` (src/main.py lines 209-211):
`sha256(f"{bitrate}:{keyframe}:{codec}")`, as a function of the triple. -/
def profile_key_of (max_bitrate_kbps keyframe_interval codec_id : Int) : String :=
  sha256Hex (toString max_bitrate_kbps ++ ":" ++ toString keyframe_interval ++ ":"
    ++ toString codec_id)

/-- Embeds `ProfileStore._profile_key` applied to a profile. -/
def ProfileStore.profile_key (p : CompressionProfile) : String :=
  profile_key_of p.max_bitrate_kbps p.keyframe_interval p.codec_id

/-- Embeds `ProfileStore.add` (src/main.py lines 199-207). -/
def ProfileStore.add (s : ProfileStore) (p : CompressionProfile) : Bool × ProfileStore :=
  let key := ProfileStore.profile_key p
  if (lookupAssoc s.by_hash key).isSome then (false, s)
  else if s.max_profiles ≤ (s.by_hash.length : Int) then (false, s)
  else (true, { s with by_hash := setAssoc s.by_hash key p, order := s.order ++ [key] })

/-- Embeds `ProfileStore.get` (src/main.py lines 213-214). -/
def ProfileStore.get (s : ProfileStore) (profile_hash : String) : Option CompressionProfile :=
  lookupAssoc s.by_hash profile_hash

/-- Embeds `JobQueue` state (src/main.py lines 237-249). -/
structure JobQueue where
  job_slots : Int
  cooldown : Rat
  max_tiers : Int
  jobs : List (SlotId × EncodeJob)
  content_processed : List String
  last_request_by_caller : List (String × Rat)
  slot_counter : Nat
deriving Repr, DecidableEq

/-- Embeds `JobQueue.__init__` (src/main.py lines 237-249). -/
def JobQueue.init (job_slots_per_tier : Int) (cooldown_seconds : Rat) (max_tiers : Int) :
    JobQueue :=
  { job_slots := job_slots_per_tier, cooldown := cooldown_seconds, max_tiers := max_tiers,
    jobs := [], content_processed := [], last_request_by_caller := [], slot_counter := 0 }

/-- Embeds `JobQueue.can_schedule` (src/main.py lines 255-261): pure decision.
`now` is the value of `time.time()` at the call. -/
def JobQueue.can_schedule (q : JobQueue) (now : Rat) (caller_id content_hash : String) :
    Bool × String :=
  if content_hash ∈ q.content_processed then (false, "content_already_processed")
  else if now - (lookupAssoc q.last_request_by_caller caller_id).getD 0 < q.cooldown then
    (false, "cooldown_active")
  else (true, "")

/-- Embeds `JobQueue.lookup` of `self._jobs.get(job_id)`. -/
def JobQueue.get_job (q : JobQueue) (job_id : SlotId) : Option EncodeJob :=
  lookupAssoc q.jobs job_id

/-- Embeds `JobQueue.schedule` (src/main.py lines 263-281).  `now` is the value of
`time.time()` during the call; `uuidHex` the random `uuid.uuid4().hex[:8]`
suffix drawn by `_next_slot_id`.  The counter is incremented only on the
path that reaches `_next_slot_id()`. -/
def JobQueue.schedule (q : JobQueue) (now : Rat) (uuidHex : String)
    (content_hash : String) (tier_index : Int) (caller_id : String) :
    Option EncodeJob × JobQueue :=
  if (q.can_schedule now caller_id content_hash).1 = false then (none, q)
  else if tier_index < 0 ∨ q.max_tiers ≤ tier_index then (none, q)
  else
    let counter := q.slot_counter + 1
    let job : EncodeJob :=
      { job_id := (counter, uuidHex), content_hash := content_hash,
        tier_index := tier_index, scheduled_at := now, nonce := counter,
        fulfilled := false, fulfilled_at := none }
    (some job,
      { q with jobs := setAssoc q.jobs (counter, uuidHex) job,
               last_request_by_caller := setAssoc q.last_request_by_caller caller_id now,
               slot_counter := counter })

/-- Embeds `JobQueue.fulfill` (src/main.py lines 283-290).  The in-place mutation of
the stored job object is modelled by overwriting its map entry. -/
def JobQueue.fulfill (q : JobQueue) (now : Rat) (job_id : SlotId) : Bool × JobQueue :=
  match lookupAssoc q.jobs job_id with
  | none => (false, q)
  | some job =>
    if job.fulfilled then (false, q)
    else
      (true,
        { q with
          jobs := setAssoc q.jobs job_id
            { job with fulfilled := true, fulfilled_at := some now },
          content_processed := insertSet q.content_processed job.content_hash })

/-- Embeds `JobQueue.is_content_processed` (src/main.py lines 295-296). -/
def JobQueue.is_content_processed (q : JobQueue) (content_hash : String) : Bool :=
  content_hash ∈ q.content_processed

/-- One externally-invokable mutating `JobQueue` operation, with its clock
reading and (for `schedule`) the random id suffix. -/
inductive QOp where
  | schedule (now : Rat) (uuidHex : String) (content_hash : String)
      (tier_index : Int) (caller_id : String)
  | fulfill (now : Rat) (job_id : SlotId)
deriving Repr, DecidableEq

/-- State after one operation (result discarded). -/
def applyOp (q : JobQueue) : QOp → JobQueue
  | .schedule now u h t c => (q.schedule now u h t c).2
  | .fulfill now j => (q.fulfill now j).2

/-- State after a sequence of operations. -/
def runOps (q : JobQueue) : List QOp → JobQueue
  | [] => q
  | op :: rest => runOps (applyOp q op) rest

/-- Embeds `validate_bitrate_kbps` (src/main.py lines 398-399). -/
def validate_bitrate_kbps (kbps : Int) : Bool :=
  256 ≤ kbps && kbps ≤ 25000

/-- Embeds `validate_keyframe_interval` (src/main.py lines 402-403). -/
def validate_keyframe_interval (interval : Int) : Bool :=
  1 ≤ interval && interval ≤ 600

/-- Embeds `validate_tier_index` (src/main.py lines 406-407). -/
def validate_tier_index (index max_tiers : Int) : Bool :=
  0 ≤ index && index < max_tiers

/-- One codec-registry entry (src/main.py lines 121-126). -/
structure CodecInfo where
  name : String
  default_keyframe : Int
  max_kbps : Int
deriving Repr, DecidableEq

/-- Embeds `CodecRegistry` state with its `__init__` defaults (src/main.py 117-126). -/
structure CodecRegistry where
  entries : List (Int × CodecInfo)
deriving Repr, DecidableEq

/-- Embeds `CodecRegistry.__init__` (src/main.py lines 120-126). -/
def CodecRegistry.init : CodecRegistry :=
  { entries :=
      [(1, { name := "H.264", default_keyframe := 48, max_kbps := 20000 }),
       (2, { name := "H.265", default_keyframe := 96, max_kbps := 25000 }),
       (3, { name := "VP9", default_keyframe := 72, max_kbps := 18000 }),
       (4, { name := "AV1", default_keyframe := 120, max_kbps := 22000 })] }

/-- Embeds `VMSCompressionEngine` state (src/main.py lines 306-326). -/
structure VMSCompressionEngine where
  codec_registry : CodecRegistry
  tier_manager : TierManager
  profile_store : ProfileStore
  job_queue : JobQueue
deriving Repr, DecidableEq

/-- Embeds `VMSCompressionEngine.__init__` (src/main.py lines 312-326). -/
def VMSCompressionEngine.init (max_profiles job_slots_per_tier : Int)
    (cooldown_seconds : Rat) (max_tiers : Int) : VMSCompressionEngine :=
  { codec_registry := CodecRegistry.init,
    tier_manager := TierManager.init max_tiers,
    profile_store := ProfileStore.init max_profiles,
    job_queue := JobQueue.init job_slots_per_tier cooldown_seconds max_tiers }

/-- Embeds `VMSCompressionEngine.register_profile` (src/main.py lines 344-359).
`uuidHex` is the random `uuid.uuid4().hex` profile id and `now` the
`time.time()` default for `created_at`. -/
def VMSCompressionEngine.register_profile (e : VMSCompressionEngine)
    (uuidHex : String) (now : Rat)
    (max_bitrate_kbps keyframe_interval codec_id : Int) :
    Option String × VMSCompressionEngine :=
  let profile : CompressionProfile :=
    { profile_id := uuidHex, max_bitrate_kbps := max_bitrate_kbps,
      keyframe_interval := keyframe_interval, codec_id := codec_id,
      active := true, created_at := now }
  let r := e.profile_store.add profile
  if r.1 = false then (none, { e with profile_store := r.2 })
  else (some (ProfileStore.profile_key profile), { e with profile_store := r.2 })

/-! Concrete sample states, used to evaluate the verified operations on
explicit inputs. -/

/-- A fresh queue with the module's default configuration. -/
def qEmpty : JobQueue := JobQueue.init 89 1123 12

/-- A fresh queue with a 5-second cooldown. -/
def qCd5 : JobQueue := JobQueue.init 89 5 12

/-- State `qEmpty` after one accepted schedule call at t = 2000. -/
def qJob : JobQueue := (qEmpty.schedule 2000 "aa" "h1" 2 "c1").2

/-- The job record created by the schedule call building `qJob`. -/
def job1 : EncodeJob :=
  { job_id := (1, "aa"), content_hash := "h1", tier_index := 2, scheduled_at := 2000,
    nonce := 1, fulfilled := false, fulfilled_at := none }

/-- Record `job1` after fulfillment at t = 2500. -/
def job1f : EncodeJob :=
  { job1 with fulfilled := true, fulfilled_at := some 2500 }

/-- State `qJob` after fulfilling its job at t = 2500. -/
def qDone : JobQueue := (qJob.fulfill 2500 (1, "aa")).2

/-- A default tier manager (12 tiers). -/
def tier0 : TierManager := TierManager.init 12

/-- An empty profile store with the default capacity. -/
def store0 : ProfileStore := ProfileStore.init 64

/-- A sample profile: 4800 kbps, 48-frame keyframe interval, codec 2. -/
def prof48 : CompressionProfile :=
  { profile_id := "p", max_bitrate_kbps := 4800, keyframe_interval := 48, codec_id := 2,
    active := true, created_at := 0 }

/-- A second profile with the same encoding parameters as `prof48` but a
different random id and creation time. -/
def prof48b : CompressionProfile :=
  { profile_id := "q", max_bitrate_kbps := 4800, keyframe_interval := 48, codec_id := 2,
    active := true, created_at := 7 }

/-- A fresh engine with the module's default configuration. -/
def engine0 : VMSCompressionEngine := VMSCompressionEngine.init 64 89 1123 12

/-! ### Lemmas about the map/set primitives -/

theorem lookupAssoc_setAssoc_self {α β : Type} [DecidableEq α]
    (l : List (α × β)) (k : α) (v : β) :
    lookupAssoc (setAssoc l k v) k = some v := by
  induction l with
  | nil => simp [setAssoc, lookupAssoc]
  | cons p rest ih =>
    obtain ⟨k', v'⟩ := p
    by_cases h : k' = k
    · simp [setAssoc, h, lookupAssoc]
    · simp [setAssoc, h, lookupAssoc, ih]

theorem lookupAssoc_setAssoc_of_ne {α β : Type} [DecidableEq α]
    (l : List (α × β)) (k k' : α) (v : β) (hne : k' ≠ k) :
    lookupAssoc (setAssoc l k v) k' = lookupAssoc l k' := by
  induction l with
  | nil => simp [setAssoc, lookupAssoc, Ne.symm hne]
  | cons p rest ih =>
    obtain ⟨k₀, v₀⟩ := p
    by_cases h : k₀ = k
    · subst h
      simp only [setAssoc, if_pos rfl, lookupAssoc]
      rw [if_neg fun hk => hne hk.symm, if_neg fun hk => hne hk.symm]
    · simp only [setAssoc, if_neg h, lookupAssoc, ih]

theorem mem_setAssoc {α β : Type} [DecidableEq α]
    (l : List (α × β)) (k : α) (v : β) (p : α × β) (hp : p ∈ setAssoc l k v) :
    p = (k, v) ∨ p ∈ l := by
  induction l with
  | nil => simpa [setAssoc] using hp
  | cons q rest ih =>
    obtain ⟨k₀, v₀⟩ := q
    by_cases h : k₀ = k
    · simp only [setAssoc, if_pos h, List.mem_cons] at hp
      rcases hp with hp | hp
      · exact Or.inl hp
      · exact Or.inr (List.mem_cons_of_mem _ hp)
    · simp only [setAssoc, if_neg h, List.mem_cons] at hp
      rcases hp with hp | hp
      · exact Or.inr (hp ▸ List.mem_cons_self _ _)
      · rcases ih hp with h' | h'
        · exact Or.inl h'
        · exact Or.inr (List.mem_cons_of_mem _ h')

theorem lookupAssoc_mem {α β : Type} [DecidableEq α]
    (l : List (α × β)) (k : α) (v : β) (h : lookupAssoc l k = some v) :
    (k, v) ∈ l := by
  induction l with
  | nil => simp [lookupAssoc] at h
  | cons p rest ih =>
    obtain ⟨k₀, v₀⟩ := p
    by_cases hk : k₀ = k
    · subst hk
      rw [lookupAssoc, if_pos rfl] at h
      cases h
      exact List.mem_cons_self _ _
    · simp only [lookupAssoc, if_neg hk] at h
      exact List.mem_cons_of_mem _ (ih h)

theorem lookupAssoc_eq_none {α β : Type} [DecidableEq α]
    (l : List (α × β)) (k : α) (h : ∀ p ∈ l, p.1 ≠ k) :
    lookupAssoc l k = none := by
  induction l with
  | nil => rfl
  | cons p rest ih =>
    obtain ⟨k₀, v₀⟩ := p
    simp only [lookupAssoc, if_neg (h (k₀, v₀) (List.mem_cons_self _ _))]
    exact ih fun p hp => h p (List.mem_cons_of_mem _ hp)

theorem setAssoc_of_lookup_none {α β : Type} [DecidableEq α]
    (l : List (α × β)) (k : α) (v : β) (h : lookupAssoc l k = none) :
    setAssoc l k v = l ++ [(k, v)] := by
  induction l with
  | nil => rfl
  | cons p rest ih =>
    obtain ⟨k₀, v₀⟩ := p
    by_cases hk : k₀ = k
    · simp [lookupAssoc, hk] at h
    · simp only [lookupAssoc, if_neg hk] at h
      simp [setAssoc, hk, ih h]

theorem mem_insertSet_self (l : List String) (x : String) : x ∈ insertSet l x := by
  unfold insertSet
  split
  · assumption
  · simp

theorem mem_insertSet_of_mem (l : List String) (x y : String) (h : y ∈ l) :
    y ∈ insertSet l x := by
  unfold insertSet
  split
  · exact h
  · exact List.mem_append_left _ h

/-! ### Structural lemmas about `JobQueue` operations -/

theorem content_processed_schedule (q : JobQueue) (now : Rat) (u h : String)
    (tier : Int) (c : String) :
    ((q.schedule now u h tier c).2).content_processed = q.content_processed := by
  unfold JobQueue.schedule
  split
  · rfl
  · split
    · rfl
    · rfl

theorem config_schedule (q : JobQueue) (now : Rat) (u h : String) (tier : Int) (c : String) :
    ((q.schedule now u h tier c).2).cooldown = q.cooldown
    ∧ ((q.schedule now u h tier c).2).max_tiers = q.max_tiers := by
  unfold JobQueue.schedule
  split
  · exact ⟨rfl, rfl⟩
  · split
    · exact ⟨rfl, rfl⟩
    · exact ⟨rfl, rfl⟩

theorem last_request_fulfill (q : JobQueue) (now : Rat) (jid : SlotId) :
    ((q.fulfill now jid).2).last_request_by_caller = q.last_request_by_caller := by
  unfold JobQueue.fulfill
  cases lookupAssoc q.jobs jid with
  | none => rfl
  | some job =>
    by_cases hf : job.fulfilled
    · simp [hf]
    · simp [hf]

theorem mem_content_processed_applyOp (q : JobQueue) (op : QOp) (h : String)
    (hm : h ∈ q.content_processed) : h ∈ (applyOp q op).content_processed := by
  cases op with
  | schedule now u ch t c =>
    rw [applyOp, content_processed_schedule]
    exact hm
  | fulfill now j =>
    rw [applyOp]
    unfold JobQueue.fulfill
    cases lookupAssoc q.jobs j with
    | none => exact hm
    | some job =>
      by_cases hf : job.fulfilled
      · simpa [hf] using hm
      · simp only [hf, Bool.false_eq_true, if_false]
        exact mem_insertSet_of_mem _ _ _ hm

theorem mem_content_processed_runOps (q : JobQueue) (ops : List QOp) (h : String)
    (hm : h ∈ q.content_processed) : h ∈ (runOps q ops).content_processed := by
  induction ops generalizing q with
  | nil => exact hm
  | cons op rest ih => exact ih _ (mem_content_processed_applyOp _ _ _ hm)

theorem can_schedule_of_processed (q : JobQueue) (now : Rat) (c h : String)
    (hm : h ∈ q.content_processed) :
    q.can_schedule now c h = (false, "content_already_processed") := by
  unfold JobQueue.can_schedule
  rw [if_pos hm]

theorem schedule_none_of_processed (q : JobQueue) (now : Rat) (u h : String)
    (tier : Int) (c : String) (hm : h ∈ q.content_processed) :
    (q.schedule now u h tier c).1 = none := by
  unfold JobQueue.schedule
  rw [if_pos (by rw [can_schedule_of_processed q now c h hm])]

/-- Auxiliary invariant: every stored job's slot counter prefix is at most the
queue's counter (job ids generated so far). -/
def keysBounded (q : JobQueue) : Prop :=
  ∀ p ∈ q.jobs, p.1.1 ≤ q.slot_counter

/-- Auxiliary invariant: the fulfillment timestamp is present exactly on
fulfilled jobs. -/
def fulfilledConsistent (q : JobQueue) : Prop :=
  ∀ p ∈ q.jobs, p.2.fulfilled_at.isSome = p.2.fulfilled

/-- How a single stored job record can change between two states: it is
untouched, or it goes from unfulfilled to fulfilled with some timestamp. -/
def evolves (j j' : EncodeJob) : Prop :=
  j' = j ∨ (j.fulfilled = false ∧ ∃ τ : Rat, j' = { j with fulfilled := true, fulfilled_at := some τ })

theorem evolves_trans (j j' j'' : EncodeJob) (h1 : evolves j j') (h2 : evolves j' j'') :
    evolves j j'' := by
  rcases h1 with rfl | ⟨hf, τ, rfl⟩
  · exact h2
  · rcases h2 with rfl | ⟨hf', _, _⟩
    · exact Or.inr ⟨hf, τ, rfl⟩
    · simp at hf'

theorem keysBounded_applyOp (q : JobQueue) (op : QOp) (hb : keysBounded q) :
    keysBounded (applyOp q op) := by
  cases op with
  | schedule now u ch t c =>
    rw [applyOp]
    unfold JobQueue.schedule
    split
    · exact hb
    · split
      · exact hb
      · intro p hp
        rcases mem_setAssoc _ _ _ _ hp with rfl | hp'
        · exact Nat.le_refl _
        · exact Nat.le_succ_of_le (hb p hp')
  | fulfill now jid =>
    rw [applyOp]
    unfold JobQueue.fulfill
    cases hl : lookupAssoc q.jobs jid with
    | none => exact hb
    | some job =>
      by_cases hf : job.fulfilled
      · simpa [hf] using hb
      · simp only [hf, Bool.false_eq_true, if_false]
        intro p hp
        rcases mem_setAssoc _ _ _ _ hp with rfl | hp'
        · exact hb (jid, job) (lookupAssoc_mem _ _ _ hl)
        · exact hb p hp'

theorem keysBounded_runOps (q : JobQueue) (ops : List QOp) (hb : keysBounded q) :
    keysBounded (runOps q ops) := by
  induction ops generalizing q with
  | nil => exact hb
  | cons op rest ih => exact ih _ (keysBounded_applyOp _ _ hb)

theorem fulfilledConsistent_applyOp (q : JobQueue) (op : QOp)
    (hc : fulfilledConsistent q) : fulfilledConsistent (applyOp q op) := by
  cases op with
  | schedule now u ch t c =>
    rw [applyOp]
    unfold JobQueue.schedule
    split
    · exact hc
    · split
      · exact hc
      · intro p hp
        rcases mem_setAssoc _ _ _ _ hp with rfl | hp'
        · rfl
        · exact hc p hp'
  | fulfill now jid =>
    rw [applyOp]
    unfold JobQueue.fulfill
    cases hl : lookupAssoc q.jobs jid with
    | none => exact hc
    | some job =>
      by_cases hf : job.fulfilled
      · simpa [hf] using hc
      · simp only [hf, Bool.false_eq_true, if_false]
        intro p hp
        rcases mem_setAssoc _ _ _ _ hp with rfl | hp'
        · rfl
        · exact hc p hp'

theorem fulfilledConsistent_runOps (q : JobQueue) (ops : List QOp)
    (hc : fulfilledConsistent q) : fulfilledConsistent (runOps q ops) := by
  induction ops generalizing q with
  | nil => exact hc
  | cons op rest ih => exact ih _ (fulfilledConsistent_applyOp _ _ hc)

theorem step_evolution (q : JobQueue) (op : QOp) (jid : SlotId) (j : EncodeJob)
    (hb : keysBounded q) (hl : q.get_job jid = some j) :
    ∃ j', (applyOp q op).get_job jid = some j' ∧ evolves j j' := by
  cases op with
  | schedule now u ch t c =>
    rw [applyOp]
    unfold JobQueue.schedule
    split
    · exact ⟨j, hl, Or.inl rfl⟩
    · split
      · exact ⟨j, hl, Or.inl rfl⟩
      · refine ⟨j, ?_, Or.inl rfl⟩
        show lookupAssoc (setAssoc q.jobs _ _) jid = some j
        rw [lookupAssoc_setAssoc_of_ne]
        · exact hl
        · intro hk
          have hle : jid.1 ≤ q.slot_counter := hb _ (lookupAssoc_mem _ _ _ hl)
          rw [hk] at hle
          exact Nat.not_succ_le_self _ hle
  | fulfill now jid2 =>
    rw [applyOp]
    unfold JobQueue.fulfill
    cases hl2 : lookupAssoc q.jobs jid2 with
    | none => exact ⟨j, hl, Or.inl rfl⟩
    | some job2 =>
      by_cases hf : job2.fulfilled
      · simpa [hf] using ⟨j, hl, Or.inl rfl⟩
      · simp only [hf, Bool.false_eq_true, if_false]
        by_cases hid : jid2 = jid
        · subst hid
          have hj : job2 = j := by
            have := hl.symm.trans hl2
            exact (Option.some.injEq _ _ ▸ this).symm
          subst hj
          refine ⟨_, ?_, Or.inr ⟨by simpa using hf, now, rfl⟩⟩
          show lookupAssoc (setAssoc q.jobs _ _) jid2 = _
          rw [lookupAssoc_setAssoc_self]
        · refine ⟨j, ?_, Or.inl rfl⟩
          show lookupAssoc (setAssoc q.jobs _ _) jid = some j
          rw [lookupAssoc_setAssoc_of_ne _ _ _ _ (fun hk => hid hk.symm)]
          exact hl

theorem runOps_evolution (q : JobQueue) (ops : List QOp) (jid : SlotId) (j j' : EncodeJob)
    (hb : keysBounded q) (hl : q.get_job jid = some j)
    (hl' : (runOps q ops).get_job jid = some j') : evolves j j' := by
  induction ops generalizing q j with
  | nil =>
    rw [runOps] at hl'
    rw [hl] at hl'
    cases hl'
    exact Or.inl rfl
  | cons op rest ih =>
    obtain ⟨j1, hj1, hev⟩ := step_evolution q op jid j hb hl
    rw [runOps] at hl'
    exact evolves_trans _ _ _ hev (ih _ _ (keysBounded_applyOp _ _ hb) hj1 hl')

/-! ### The claims -/

/-- C1: in any state, once `fulfill` succeeds on a job whose content hash is
`h`, then after any further sequence of operations, `can_schedule` for `h`
returns `(false, "content_already_processed")` for every caller and time, and
`schedule` admits no further job for `h`. -/
theorem C1_fulfilled_hash_permanently_rejected (q : JobQueue) (now : Rat)
    (jid : SlotId) (job : EncodeJob)
    (hj : q.get_job jid = some job) (hf : (q.fulfill now jid).1 = true) :
    ∀ (ops : List QOp) (now' : Rat) (u caller : String) (tier : Int),
      (runOps (q.fulfill now jid).2 ops).can_schedule now' caller job.content_hash
        = (false, "content_already_processed")
      ∧ ((runOps (q.fulfill now jid).2 ops).schedule now' u job.content_hash
          tier caller).1 = none := by
  have hl : lookupAssoc q.jobs jid = some job := hj
  have hful : job.fulfilled = false := by
    by_contra hc
    rw [Bool.not_eq_false] at hc
    unfold JobQueue.fulfill at hf
    rw [hl] at hf
    simp [hc] at hf
  have hmem : job.content_hash ∈ ((q.fulfill now jid).2).content_processed := by
    unfold JobQueue.fulfill
    rw [hl]
    simp only [hful, Bool.false_eq_true, if_false]
    exact mem_insertSet_self _ _
  intro ops now' u caller tier
  have hmem' := mem_content_processed_runOps _ ops _ hmem
  exact ⟨can_schedule_of_processed _ _ _ _ hmem',
    schedule_none_of_processed _ _ _ _ _ _ hmem'⟩

/-- C3: a `schedule` call returning `none` — whether rejected by
`can_schedule` or by the tier bound — leaves the queue state entirely
unchanged; and the per-caller last-accepted-time map changes under no
operation other than a successful `schedule`. -/
theorem C3_rejected_schedule_no_mutation (q : JobQueue) :
    (∀ (now : Rat) (u h : String) (tier : Int) (c : String),
      (q.schedule now u h tier c).1 = none → (q.schedule now u h tier c).2 = q)
    ∧ ∀ op : QOp, (applyOp q op).last_request_by_caller ≠ q.last_request_by_caller →
        ∃ now u h tier c, op = QOp.schedule now u h tier c
          ∧ (q.schedule now u h tier c).1.isSome = true := by
  have part1 : ∀ (now : Rat) (u h : String) (tier : Int) (c : String),
      (q.schedule now u h tier c).1 = none → (q.schedule now u h tier c).2 = q := by
    intro now u h tier c hrej
    unfold JobQueue.schedule at hrej ⊢
    by_cases h1 : (q.can_schedule now c h).1 = false
    · rw [if_pos h1]
    · rw [if_neg h1] at hrej ⊢
      by_cases h2 : tier < 0 ∨ q.max_tiers ≤ tier
      · rw [if_pos h2]
      · rw [if_neg h2] at hrej
        simp at hrej
  refine ⟨part1, ?_⟩
  intro op hne
  cases op with
  | fulfill now jid => exact absurd (last_request_fulfill q now jid) hne
  | schedule now u h tier c =>
    refine ⟨now, u, h, tier, c, rfl, ?_⟩
    by_cases hs : (q.schedule now u h tier c).1 = none
    · exact absurd (congrArg JobQueue.last_request_by_caller
        (part1 now u h tier c hs)) hne
    · rw [Option.isSome_iff_ne_none]
      exact hs

/-- C4: `fulfill` fails exactly when the job id is absent or the job is
already fulfilled, and then changes nothing (in particular a second
`fulfill` on the same id fails without touching `fulfilled_at`); on success
it marks the job fulfilled with the current timestamp and adds its content
hash to the processed set, which `schedule` — the only other mutator —
never touches. -/
theorem C4_fulfill_contract (q : JobQueue) (now : Rat) (jid : SlotId) :
    ((q.fulfill now jid).1 = false ↔
        q.get_job jid = none ∨ ∃ j, q.get_job jid = some j ∧ j.fulfilled = true)
    ∧ ((q.fulfill now jid).1 = false → (q.fulfill now jid).2 = q)
    ∧ (∀ j, q.get_job jid = some j → j.fulfilled = false →
        (q.fulfill now jid).1 = true
        ∧ (q.fulfill now jid).2.get_job jid
            = some { j with fulfilled := true, fulfilled_at := some now }
        ∧ (q.fulfill now jid).2.content_processed
            = insertSet q.content_processed j.content_hash
        ∧ ∀ now' : Rat, ((q.fulfill now jid).2.fulfill now' jid).1 = false
            ∧ ((q.fulfill now jid).2.fulfill now' jid).2 = (q.fulfill now jid).2)
    ∧ ∀ (now' : Rat) (u h : String) (tier : Int) (c : String),
        ((q.schedule now' u h tier c).2).content_processed = q.content_processed := by
  cases hl : lookupAssoc q.jobs jid with
  | none =>
    have hfe : q.fulfill now jid = (false, q) := by
      unfold JobQueue.fulfill
      rw [hl]
    refine ⟨?_, ?_, ?_, ?_⟩
    · rw [hfe]
      simp only [true_iff]
      exact Or.inl hl
    · intro _
      rw [hfe]
    · intro j hj
      rw [show q.get_job jid = lookupAssoc q.jobs jid from rfl, hl] at hj
      cases hj
    · exact fun now' u h tier c => content_processed_schedule q now' u h tier c
  | some job =>
    by_cases hful : job.fulfilled
    · have hfe : q.fulfill now jid = (false, q) := by
        unfold JobQueue.fulfill
        rw [hl]
        simp [hful]
      refine ⟨?_, ?_, ?_, ?_⟩
      · rw [hfe]
        simp only [true_iff]
        exact Or.inr ⟨job, hl, hful⟩
      · intro _
        rw [hfe]
      · intro j hj hjf
        have : job = j := by
          have := (show q.get_job jid = lookupAssoc q.jobs jid from rfl) ▸ hj
          rw [hl] at this
          exact Option.some.inj this
        rw [this] at hful
        rw [hful] at hjf
        cases hjf
      · exact fun now' u h tier c => content_processed_schedule q now' u h tier c
    · have hful' : job.fulfilled = false := by simpa using hful
      have hfe : q.fulfill now jid =
          (true,
            { q with
              jobs := setAssoc q.jobs jid
                { job with fulfilled := true, fulfilled_at := some now },
              content_processed := insertSet q.content_processed job.content_hash }) := by
        unfold JobQueue.fulfill
        rw [hl]
        simp [hful']
      refine ⟨?_, ?_, ?_, ?_⟩
      · rw [hfe]
        simp only [Bool.true_eq_false, false_iff]
        rintro (hnone | ⟨j, hj, hjf⟩)
        · rw [show q.get_job jid = lookupAssoc q.jobs jid from rfl, hl] at hnone
          cases hnone
        · rw [show q.get_job jid = lookupAssoc q.jobs jid from rfl, hl] at hj
          cases hj
          rw [hful'] at hjf
          cases hjf
      · intro hcontra
        rw [hfe] at hcontra
        cases hcontra
      · intro j hj _
        have hjj : job = j := by
          have := (show q.get_job jid = lookupAssoc q.jobs jid from rfl) ▸ hj
          rw [hl] at this
          exact Option.some.inj this
        subst hjj
        have hget : (q.fulfill now jid).2.get_job jid
            = some { job with fulfilled := true, fulfilled_at := some now } := by
          rw [hfe]
          exact lookupAssoc_setAssoc_self _ _ _
        refine ⟨by rw [hfe], hget, by rw [hfe], ?_⟩
        intro now'
        have hget' : lookupAssoc ((q.fulfill now jid).2).jobs jid
            = some { job with fulfilled := true, fulfilled_at := some now } := hget
        have hfe2 : (q.fulfill now jid).2.fulfill now' jid
            = (false, (q.fulfill now jid).2) := by
          generalize hq2 : (q.fulfill now jid).2 = q2 at hget'
          unfold JobQueue.fulfill
          rw [hget']
          simp
        rw [hfe2]
        exact ⟨rfl, rfl⟩
      · exact fun now' u h tier c => content_processed_schedule q now' u h tier c

/-- C5: in every state reachable from a fresh queue by any sequence of
operations, every stored job has `fulfilled_at` set iff `fulfilled` is true;
and across any further operations a stored job record either stays exactly
as it is or makes the single false→true fulfillment transition (acquiring a
timestamp), never the reverse. -/
theorem C5_fulfilled_once_invariant (slots : Int) (cd : Rat) (mt : Int)
    (ops ops' : List QOp) (jid : SlotId) (j j' : EncodeJob)
    (hq : (runOps (JobQueue.init slots cd mt) ops).get_job jid = some j)
    (hq' : (runOps (runOps (JobQueue.init slots cd mt) ops) ops').get_job jid = some j') :
    j.fulfilled_at.isSome = j.fulfilled
    ∧ (j' = j ∨ (j.fulfilled = false ∧ j'.fulfilled = true
        ∧ ∃ τ : Rat, j' = { j with fulfilled := true, fulfilled_at := some τ })) := by
  have hb0 : keysBounded (JobQueue.init slots cd mt) := by
    intro p hp
    simp [JobQueue.init] at hp
  have hc0 : fulfilledConsistent (JobQueue.init slots cd mt) := by
    intro p hp
    simp [JobQueue.init] at hp
  have hb := keysBounded_runOps _ ops hb0
  have hc := fulfilledConsistent_runOps _ ops hc0
  refine ⟨hc (jid, j) (lookupAssoc_mem _ _ _ hq), ?_⟩
  have hev := runOps_evolution _ ops' jid j j' hb hq hq'
  rcases hev with rfl | ⟨hf, τ, rfl⟩
  · exact Or.inl rfl
  · exact Or.inr ⟨hf, rfl, τ, rfl⟩

/-- Witness for C1 on a concrete queue: after fulfilling the job for `"h1"`
and running one more operation, `"h1"` is rejected as already processed. -/
theorem C1_witness :
    (runOps (qJob.fulfill 2500 (1, "aa")).2 [QOp.schedule 3000 "bb" "h2" 1 "c2"]).can_schedule
        4000 "c9" "h1" = (false, "content_already_processed")
    ∧ ((runOps (qJob.fulfill 2500 (1, "aa")).2 [QOp.schedule 3000 "bb" "h2" 1 "c2"]).schedule
        4000 "cc" "h1" 3 "c9").1 = none :=
  C1_fulfilled_hash_permanently_rejected qJob 2500 (1, "aa") job1 (by decide) (by decide)
    [QOp.schedule 3000 "bb" "h2" 1 "c2"] 4000 "cc" "c9" 3

/-- Witness for C3 on a concrete queue: a schedule call rejected because
`"h1"` is already processed leaves the state unchanged. -/
theorem C3_witness : (qDone.schedule 9999 "zz" "h1" 0 "c7").2 = qDone :=
  (C3_rejected_schedule_no_mutation qDone).1 9999 "zz" "h1" 0 "c7" (by decide)

/-- Witness for C4 on a concrete queue: the first `fulfill` succeeds, the
second on the same job id fails. -/
theorem C4_witness :
    (qJob.fulfill 2500 (1, "aa")).1 = true
    ∧ ((qJob.fulfill 2500 (1, "aa")).2.fulfill 2600 (1, "aa")).1 = false := by
  have h := (C4_fulfill_contract qJob 2500 (1, "aa")).2.2.1 job1 (by decide) (by decide)
  exact ⟨h.1, (h.2.2.2 2600).1⟩

/-- Witness for C5 on a concrete run: the freshly scheduled job satisfies the
timestamp invariant and evolves into its fulfilled version. -/
theorem C5_witness :
    job1.fulfilled_at.isSome = job1.fulfilled
    ∧ (job1f = job1 ∨ (job1.fulfilled = false ∧ job1f.fulfilled = true
        ∧ ∃ τ : Rat, job1f = { job1 with fulfilled := true, fulfilled_at := some τ })) :=
  C5_fulfilled_once_invariant 89 1123 12 [QOp.schedule 2000 "aa" "h1" 2 "c1"]
    [QOp.fulfill 2500 (1, "aa")] (1, "aa") job1 job1f (by decide) (by decide)

/-- C2: after a caller's accepted schedule at time `t`, a second schedule at
time `t'` on an unprocessed hash is rejected with `cooldown_active` when
`t' - t < cooldownSeconds`, and succeeds when `t' - t ≥ cooldownSeconds` and
the tier index is in range. -/
theorem C2_cooldown_window (q : JobQueue) (t t' : Rat) (u0 u : String)
    (h0 h : String) (tier0 tier : Int) (c : String)
    (hacc : (q.schedule t u0 h0 tier0 c).1.isSome = true)
    (hh : h ∉ ((q.schedule t u0 h0 tier0 c).2).content_processed) :
    (t' - t < q.cooldown →
      ((q.schedule t u0 h0 tier0 c).2).can_schedule t' c h = (false, "cooldown_active")
      ∧ (((q.schedule t u0 h0 tier0 c).2).schedule t' u h tier c).1 = none)
    ∧ (q.cooldown ≤ t' - t → 0 ≤ tier → tier < q.max_tiers →
      (((q.schedule t u0 h0 tier0 c).2).schedule t' u h tier c).1.isSome = true) := by
  have hlast : lookupAssoc ((q.schedule t u0 h0 tier0 c).2).last_request_by_caller c
      = some t := by
    unfold JobQueue.schedule at hacc ⊢
    by_cases h1 : (q.can_schedule t c h0).1 = false
    · rw [if_pos h1] at hacc
      simp at hacc
    · rw [if_neg h1] at hacc ⊢
      by_cases h2 : tier0 < 0 ∨ q.max_tiers ≤ tier0
      · rw [if_pos h2] at hacc
        simp at hacc
      · rw [if_neg h2]
        exact lookupAssoc_setAssoc_self _ _ _
  have hcd : ((q.schedule t u0 h0 tier0 c).2).cooldown = q.cooldown :=
    (config_schedule q t u0 h0 tier0 c).1
  have hmt : ((q.schedule t u0 h0 tier0 c).2).max_tiers = q.max_tiers :=
    (config_schedule q t u0 h0 tier0 c).2
  constructor
  · intro hlt
    have hcs : ((q.schedule t u0 h0 tier0 c).2).can_schedule t' c h
        = (false, "cooldown_active") := by
      unfold JobQueue.can_schedule
      rw [if_neg hh, hlast]
      simp only [Option.getD_some]
      rw [hcd, if_pos hlt]
    refine ⟨hcs, ?_⟩
    generalize hq1 : (q.schedule t u0 h0 tier0 c).2 = q1 at hcs
    unfold JobQueue.schedule
    rw [if_pos (by rw [hcs])]
  · intro hge htl htu
    have hcs : ((q.schedule t u0 h0 tier0 c).2).can_schedule t' c h = (true, "") := by
      unfold JobQueue.can_schedule
      rw [if_neg hh, hlast]
      simp only [Option.getD_some]
      rw [hcd, if_neg (not_lt.mpr hge)]
    generalize hq1 : (q.schedule t u0 h0 tier0 c).2 = q1 at hcs hmt
    unfold JobQueue.schedule
    rw [if_neg (by rw [hcs]; simp), if_neg]
    · rfl
    · rw [hmt]
      push_neg
      exact ⟨htl, htu⟩

/-- Witness for C2 on a concrete queue (cooldown 5, accepted schedule at
t = 10): at t' = 12 the second call is rejected with `cooldown_active`; at
t' = 17 it succeeds. -/
theorem C2_witness :
    ((qCd5.schedule 10 "aa" "h0" 0 "c").2).can_schedule 12 "c" "hx"
        = (false, "cooldown_active")
    ∧ (((qCd5.schedule 10 "aa" "h0" 0 "c").2).schedule 17 "u2" "hx" 1 "c").1.isSome
        = true := by
  have h12 := C2_cooldown_window qCd5 10 12 "aa" "u2" "h0" "hx" 0 1 "c"
    (by decide) (by decide)
  have h17 := C2_cooldown_window qCd5 10 17 "aa" "u2" "h0" "hx" 0 1 "c"
    (by decide) (by decide)
  exact ⟨(h12.1 (by decide)).1, h17.2 (by decide) (by decide) (by decide)⟩

/-- C8 counterexample: at time 5 with the default cooldown 1123, a caller
with no prior accepted request is rejected with `cooldown_active` — the
cooldown check on first use does not pass regardless of the current time and
configured cooldown. -/
theorem C8_counterexample :
    (JobQueue.init 89 1123 12).can_schedule 5 "c" "h" = (false, "cooldown_active") := by
  decide

/-- C8 amended: a caller with no prior accepted request is treated as having
last-accepted time 0 (the epoch), so on an unprocessed hash the first-use
cooldown check passes exactly when `now - 0 ≥ cooldownSeconds`, i.e. when
the current time is at least the cooldown duration past the epoch — not
unconditionally. -/
theorem C8_fresh_caller_epoch (q : JobQueue) (now : Rat) (c h : String)
    (hfresh : lookupAssoc q.last_request_by_caller c = none)
    (hh : h ∉ q.content_processed) :
    q.can_schedule now c h
      = if now - 0 < q.cooldown then (false, "cooldown_active") else (true, "") := by
  unfold JobQueue.can_schedule
  rw [if_neg hh, hfresh]
  rfl

/-- Witness for the amended C8: a fresh caller at t = 2000 with the default
cooldown 1123 passes the check. -/
theorem C8_witness : qEmpty.can_schedule 2000 "c" "h" = (true, "") :=
  (C8_fresh_caller_epoch qEmpty 2000 "c" "h" (by decide) (by decide)).trans (by decide)

/-- C9: `jobSlotsPerTier` has no effect on `schedule` — the decision and the
rest of the resulting state are the same for any value of the parameter —
and the decision is also independent of the stored jobs (in particular of
how many jobs exist for the requested tier): no per-tier capacity is
enforced. -/
theorem C9_job_slots_unenforced (q : JobQueue) (n : Int)
    (jobs2 : List (SlotId × EncodeJob)) (now : Rat) (u h : String)
    (tier : Int) (c : String) :
    (({ q with job_slots := n } : JobQueue).schedule now u h tier c).1
        = (q.schedule now u h tier c).1
    ∧ (({ q with job_slots := n } : JobQueue).schedule now u h tier c).2
        = { (q.schedule now u h tier c).2 with job_slots := n }
    ∧ (({ q with jobs := jobs2 } : JobQueue).schedule now u h tier c).1
        = (q.schedule now u h tier c).1
    ∧ (({ q with jobs := jobs2 } : JobQueue).schedule now u h tier c).2.content_processed
        = (q.schedule now u h tier c).2.content_processed
    ∧ (({ q with jobs := jobs2 } : JobQueue).schedule now u h tier c).2.last_request_by_caller
        = (q.schedule now u h tier c).2.last_request_by_caller
    ∧ (({ q with jobs := jobs2 } : JobQueue).schedule now u h tier c).2.slot_counter
        = (q.schedule now u h tier c).2.slot_counter := by
  have hcs1 : ({ q with job_slots := n } : JobQueue).can_schedule now c h
      = q.can_schedule now c h := rfl
  have hcs2 : ({ q with jobs := jobs2 } : JobQueue).can_schedule now c h
      = q.can_schedule now c h := rfl
  unfold JobQueue.schedule
  rw [hcs1, hcs2]
  by_cases h1 : (q.can_schedule now c h).1 = false
  · simp [h1]
  · by_cases h2 : tier < 0 ∨ q.max_tiers ≤ tier
    · simp [h1, h2]
    · simp [h1, h2]

/-- Value of `getD` after an in-range `set` at the same index. -/
theorem getD_set_self (l : List Int) (i : Nat) (v : Int) (h : i < l.length) :
    (l.set i v).getD i 0 = v := by
  rw [List.getD_eq_getElem _ _ (by simpa using h)]
  exact List.getElem_set_self _

/-- Value of `getD` after a `set` at a different index. -/
theorem getD_set_of_ne (l : List Int) (i j : Nat) (v : Int) (h : i ≠ j) :
    (l.set i v).getD j 0 = l.getD j 0 := by
  by_cases hj : j < l.length
  · rw [List.getD_eq_getElem _ _ (by simpa using hj), List.getD_eq_getElem _ _ hj]
    exact List.getElem_set_of_ne h v _
  · rw [List.getD_eq_default _ _ (by simpa using Nat.le_of_not_lt hj),
      List.getD_eq_default _ _ (Nat.le_of_not_lt hj)]

/-- Value of `getD` inside a replicate block. -/
theorem getD_replicate_of_lt (n m : Nat) (a : Int) (h : m < n) :
    (List.replicate n a).getD m 0 = a := by
  rw [List.getD_eq_getElem _ _ (by simpa using h)]
  exact List.getElem_replicate a _

/-- C6: `setTierBitrate` fails with no state change exactly when the index is
outside `[0, maxTiers)` or the kbps outside `[256, 25000]` (255 and 25001
rejected, 256 and 25000 accepted on an in-range index); on success it pads
the sequence with 256-kbps placeholders up to the index, sets that position,
leaves earlier positions unchanged, and `getBitrateForTier` then returns the
new value. -/
theorem C6_set_tier_bitrate_contract (t : TierManager) (tier_index kbps : Int) :
    (((t.set_tier_bitrate tier_index kbps).1 = false ↔
        tier_index < 0 ∨ t.max_tiers ≤ tier_index ∨ kbps < 256 ∨ 25000 < kbps)
      ∧ ((t.set_tier_bitrate tier_index kbps).1 = false →
          (t.set_tier_bitrate tier_index kbps).2 = t))
    ∧ ((t.set_tier_bitrate tier_index kbps).1 = true →
        (t.set_tier_bitrate tier_index kbps).2.get_bitrate_for_tier tier_index = kbps
        ∧ (t.set_tier_bitrate tier_index kbps).2.tier_bitrate_kbps.length
            = max t.tier_bitrate_kbps.length (tier_index.toNat + 1)
        ∧ (∀ j : Nat, (j : Int) ≠ tier_index → j < t.tier_bitrate_kbps.length →
            (t.set_tier_bitrate tier_index kbps).2.tier_bitrate_kbps.getD j 0
              = t.tier_bitrate_kbps.getD j 0)
        ∧ ∀ j : Nat, t.tier_bitrate_kbps.length ≤ j → (j : Int) < tier_index →
            (t.set_tier_bitrate tier_index kbps).2.tier_bitrate_kbps.getD j 0 = 256)
    ∧ ((t.set_tier_bitrate tier_index 255).1 = false
        ∧ (t.set_tier_bitrate tier_index 25001).1 = false)
    ∧ (0 ≤ tier_index → tier_index < t.max_tiers →
        (t.set_tier_bitrate tier_index 256).1 = true
        ∧ (t.set_tier_bitrate tier_index 25000).1 = true) := by
  have hboundary : ∀ kb : Int, kb < 256 ∨ 25000 < kb →
      (t.set_tier_bitrate tier_index kb).1 = false := by
    intro kb hkb
    unfold TierManager.set_tier_bitrate
    by_cases hb1 : tier_index < 0 ∨ t.max_tiers ≤ tier_index
    · rw [if_pos hb1]
    · rw [if_neg hb1, if_pos hkb]
  have hboundary2 : ∀ kb : Int, 0 ≤ tier_index → tier_index < t.max_tiers →
      256 ≤ kb → kb ≤ 25000 → (t.set_tier_bitrate tier_index kb).1 = true := by
    intro kb h0 hmt hk1 hk2
    unfold TierManager.set_tier_bitrate
    rw [if_neg (by omega), if_neg (by omega)]
  have hreject_state : (t.set_tier_bitrate tier_index kbps).1 = false →
      (t.set_tier_bitrate tier_index kbps).2 = t := by
    intro hf
    unfold TierManager.set_tier_bitrate at hf ⊢
    by_cases hb1 : tier_index < 0 ∨ t.max_tiers ≤ tier_index
    · rw [if_pos hb1]
    · rw [if_neg hb1] at hf ⊢
      by_cases hb2 : kbps < 256 ∨ 25000 < kbps
      · rw [if_pos hb2]
      · rw [if_neg hb2] at hf
        simp at hf
  refine ⟨⟨?_, hreject_state⟩, ?_,
    ⟨hboundary 255 (by omega), hboundary 25001 (by omega)⟩,
    fun h0 hmt => ⟨hboundary2 256 h0 hmt (by omega) (by omega),
      hboundary2 25000 h0 hmt (by omega) (by omega)⟩⟩
  · constructor
    · intro hf
      by_contra hc
      push_neg at hc
      obtain ⟨h1, h2, h3, h4⟩ := hc
      rw [hboundary2 kbps h1 h2 h3 h4] at hf
      cases hf
    · intro hcond
      rcases hcond with h | h | h | h
      · unfold TierManager.set_tier_bitrate
        rw [if_pos (Or.inl h)]
      · unfold TierManager.set_tier_bitrate
        rw [if_pos (Or.inr h)]
      · exact hboundary kbps (Or.inl h)
      · exact hboundary kbps (Or.inr h)
  · intro hsucc
    by_cases hb1 : tier_index < 0 ∨ t.max_tiers ≤ tier_index
    · exfalso
      unfold TierManager.set_tier_bitrate at hsucc
      rw [if_pos hb1] at hsucc
      cases hsucc
    · by_cases hb2 : kbps < 256 ∨ 25000 < kbps
      · exfalso
        unfold TierManager.set_tier_bitrate at hsucc
        rw [if_neg hb1, if_pos hb2] at hsucc
        cases hsucc
      · push_neg at hb1 hb2
        have hfe : t.set_tier_bitrate tier_index kbps = (true, { t with tier_bitrate_kbps := ((t.tier_bitrate_kbps ++ List.replicate (tier_index.toNat + 1 - t.tier_bitrate_kbps.length) 256).set tier_index.toNat kbps : List Int) }) := by
          unfold TierManager.set_tier_bitrate
          rw [if_neg (by omega), if_neg (by omega)]
        have hplen : (t.tier_bitrate_kbps ++ List.replicate (tier_index.toNat + 1 - t.tier_bitrate_kbps.length) 256).length = max t.tier_bitrate_kbps.length (tier_index.toNat + 1) := by
          rw [List.length_append, List.length_replicate]
          omega
        have hlen : (t.set_tier_bitrate tier_index kbps).2.tier_bitrate_kbps.length
            = max t.tier_bitrate_kbps.length (tier_index.toNat + 1) := by
          rw [hfe]
          simpa [List.length_set] using hplen
        refine ⟨?_, hlen, ?_, ?_⟩
        · have hcond : 0 ≤ tier_index ∧ tier_index <
              (((t.set_tier_bitrate tier_index kbps).2.tier_bitrate_kbps.length : Nat) : Int) := by
            refine ⟨hb1.1, ?_⟩
            rw [hlen]
            omega
          unfold TierManager.get_bitrate_for_tier
          rw [if_pos hcond, hfe]
          exact getD_set_self _ _ _ (by rw [hplen]; omega)
        · intro j hjne hjlt
          rw [hfe]
          show ((t.tier_bitrate_kbps ++ List.replicate (tier_index.toNat + 1 - t.tier_bitrate_kbps.length) 256).set tier_index.toNat kbps).getD j 0 = t.tier_bitrate_kbps.getD j 0
          rw [getD_set_of_ne _ _ _ _ (by omega)]
          exact List.getD_append _ _ _ _ hjlt
        · intro j hjge hjlt
          rw [hfe]
          show ((t.tier_bitrate_kbps ++ List.replicate (tier_index.toNat + 1 - t.tier_bitrate_kbps.length) 256).set tier_index.toNat kbps).getD j 0 = (256 : Int)
          rw [getD_set_of_ne _ _ _ _ (by omega), List.getD_append_right _ _ _ _ hjge]
          exact getD_replicate_of_lt _ _ _ (by omega)

/-- Witness for C6 on the default tier manager: setting tier 10 to 5000
succeeds and reads back; 255 and 25001 are rejected, 256 and 25000
accepted. -/
theorem C6_witness :
    (tier0.set_tier_bitrate 10 5000).1 = true
    ∧ (tier0.set_tier_bitrate 10 5000).2.get_bitrate_for_tier 10 = 5000
    ∧ (tier0.set_tier_bitrate 0 255).1 = false
    ∧ (tier0.set_tier_bitrate 0 25001).1 = false
    ∧ (tier0.set_tier_bitrate 0 256).1 = true
    ∧ (tier0.set_tier_bitrate 0 25000).1 = true := by
  have hc := C6_set_tier_bitrate_contract tier0 10 5000
  have hb := C6_set_tier_bitrate_contract tier0 0 5000
  exact ⟨by decide, (hc.2.1 (by decide)).1, hb.2.2.1.1, hb.2.2.1.2,
    (hb.2.2.2 (by decide) (by decide)).1, (hb.2.2.2 (by decide) (by decide)).2⟩

/-- C7: `ProfileStore.add` fails with the store unchanged exactly when the
profile's derived key is already present or the store is at capacity;
otherwise it appends the entry and its key to the insertion order; hence a
second profile with the same (bitrate, keyframe, codec) is rejected with no
change. -/
theorem C7_profile_store_add (s : ProfileStore) (p : CompressionProfile) :
    (((s.add p).1 = false ↔
        (lookupAssoc s.by_hash (ProfileStore.profile_key p)).isSome = true
        ∨ s.max_profiles ≤ (s.by_hash.length : Int))
      ∧ ((s.add p).1 = false → (s.add p).2 = s))
    ∧ ((s.add p).1 = true →
        (s.add p).2.by_hash = s.by_hash ++ [(ProfileStore.profile_key p, p)]
        ∧ (s.add p).2.order = s.order ++ [ProfileStore.profile_key p]
        ∧ (s.add p).2.get (ProfileStore.profile_key p) = some p)
    ∧ ∀ p2 : CompressionProfile,
        p2.max_bitrate_kbps = p.max_bitrate_kbps →
        p2.keyframe_interval = p.keyframe_interval →
        p2.codec_id = p.codec_id →
        (s.add p).1 = true →
        ((s.add p).2.add p2).1 = false ∧ ((s.add p).2.add p2).2 = (s.add p).2 := by
  by_cases h1 : (lookupAssoc s.by_hash (ProfileStore.profile_key p)).isSome = true
  · have hfe : s.add p = (false, s) := by
      unfold ProfileStore.add
      rw [if_pos h1]
    refine ⟨⟨?_, ?_⟩, ?_, ?_⟩
    · rw [hfe]
      simp only [true_iff]
      exact Or.inl h1
    · intro _
      rw [hfe]
    · intro hcontra
      rw [hfe] at hcontra
      cases hcontra
    · intro p2 _ _ _ hcontra
      rw [hfe] at hcontra
      cases hcontra
  · by_cases h2 : s.max_profiles ≤ (s.by_hash.length : Int)
    · have hfe : s.add p = (false, s) := by
        unfold ProfileStore.add
        rw [if_neg h1, if_pos h2]
      refine ⟨⟨?_, ?_⟩, ?_, ?_⟩
      · rw [hfe]
        simp only [true_iff]
        exact Or.inr h2
      · intro _
        rw [hfe]
      · intro hcontra
        rw [hfe] at hcontra
        cases hcontra
      · intro p2 _ _ _ hcontra
        rw [hfe] at hcontra
        cases hcontra
    · have hnone : lookupAssoc s.by_hash (ProfileStore.profile_key p) = none :=
        Option.not_isSome_iff_eq_none.mp h1
      have hfe : s.add p = (true, { s with by_hash := setAssoc s.by_hash (ProfileStore.profile_key p) p, order := s.order ++ [ProfileStore.profile_key p] }) := by
        unfold ProfileStore.add
        rw [if_neg h1, if_neg h2]
      refine ⟨⟨?_, ?_⟩, ?_, ?_⟩
      · rw [hfe]
        simp only [Bool.true_eq_false, false_iff]
        push_neg
        exact ⟨h1, lt_of_not_le h2⟩
      · intro hcontra
        rw [hfe] at hcontra
        cases hcontra
      · intro _
        refine ⟨?_, ?_, ?_⟩
        · rw [hfe]
          exact setAssoc_of_lookup_none _ _ _ hnone
        · rw [hfe]
        · rw [hfe]
          exact lookupAssoc_setAssoc_self _ _ _
      · intro p2 e1 e2 e3 _
        have hkey2 : ProfileStore.profile_key p2 = ProfileStore.profile_key p := by
          unfold ProfileStore.profile_key profile_key_of
          rw [e1, e2, e3]
        have hlook2 : (lookupAssoc ((s.add p).2).by_hash
            (ProfileStore.profile_key p2)).isSome = true := by
          rw [hkey2, hfe]
          show (lookupAssoc (setAssoc s.by_hash (ProfileStore.profile_key p) p)
            (ProfileStore.profile_key p)).isSome = true
          rw [lookupAssoc_setAssoc_self]
          rfl
        have hfe2 : ((s.add p).2).add p2 = (false, (s.add p).2) := by
          generalize hs2 : (s.add p).2 = s2 at hlook2
          unfold ProfileStore.add
          rw [if_pos hlook2]
        rw [hfe2]
        exact ⟨rfl, rfl⟩

/-- Witness for C7: adding `prof48` to an empty store succeeds; adding a
second profile with the same encoding parameters fails and leaves the store
unchanged. -/
theorem C7_witness :
    (store0.add prof48).1 = true
    ∧ ((store0.add prof48).2.add prof48b).1 = false
    ∧ ((store0.add prof48).2.add prof48b).2 = (store0.add prof48).2 := by
  have h := (C7_profile_store_add store0 prof48).2.2 prof48b rfl rfl rfl (by decide)
  exact ⟨by decide, h.1, h.2⟩

/-- C10: `register_profile` performs no range validation — for every bitrate
and keyframe interval, including values on which `validate_bitrate_kbps` or
`validate_keyframe_interval` return false, registration succeeds and returns
the derived profile key whenever the key is not already stored and the store
is below capacity. -/
theorem add_success_shape (s : ProfileStore) (p : CompressionProfile)
    (h1 : lookupAssoc s.by_hash (ProfileStore.profile_key p) = none)
    (h2 : (s.by_hash.length : Int) < s.max_profiles) :
    s.add p = (true, { s with by_hash := setAssoc s.by_hash (ProfileStore.profile_key p) p, order := s.order ++ [ProfileStore.profile_key p] }) := by
  unfold ProfileStore.add
  rw [if_neg (by rw [h1]; simp), if_neg (not_le.mpr h2)]

theorem C10_register_profile_no_validation (e : VMSCompressionEngine)
    (u : String) (now : Rat) (b k c : Int)
    (hkey : ∀ p ∈ e.profile_store.by_hash, p.1 ≠ profile_key_of b k c)
    (hcap : (e.profile_store.by_hash.length : Int) < e.profile_store.max_profiles) :
    (e.register_profile u now b k c).1 = some (profile_key_of b k c)
    ∧ ∀ b2 k2 : Int,
        validate_bitrate_kbps b2 = false → validate_keyframe_interval k2 = false →
        (∀ p ∈ e.profile_store.by_hash, p.1 ≠ profile_key_of b2 k2 c) →
        (e.register_profile u now b2 k2 c).1 = some (profile_key_of b2 k2 c) := by
  have main : ∀ b' k' c' : Int,
      (∀ p ∈ e.profile_store.by_hash, p.1 ≠ profile_key_of b' k' c') →
      (e.register_profile u now b' k' c').1 = some (profile_key_of b' k' c') := by
    intro b' k' c' hkey'
    have hlook : lookupAssoc e.profile_store.by_hash
        (ProfileStore.profile_key
          { profile_id := u, max_bitrate_kbps := b', keyframe_interval := k',
            codec_id := c', active := true, created_at := now }) = none :=
      lookupAssoc_eq_none _ _ hkey'
    have hadd1 : (e.profile_store.add
        { profile_id := u, max_bitrate_kbps := b', keyframe_interval := k',
          codec_id := c', active := true, created_at := now }).1 = true := by
      rw [add_success_shape _ _ hlook hcap]
    show (if (e.profile_store.add
        { profile_id := u, max_bitrate_kbps := b', keyframe_interval := k',
          codec_id := c', active := true, created_at := now }).1 = false
      then _ else _ : Option String × VMSCompressionEngine).1 = _
    rw [if_neg (by rw [hadd1]; simp)]
    rfl
  exact ⟨main b k c hkey, fun b2 k2 _ _ hkey2 => main b2 k2 c hkey2⟩

/-- Witness for C10: bitrate 0 and keyframe interval 0 both fail validation,
yet registering such a profile on a fresh engine succeeds and returns its
key. -/
theorem C10_witness :
    validate_bitrate_kbps 0 = false
    ∧ validate_keyframe_interval 0 = false
    ∧ (engine0.register_profile "u" 0 0 0 1).1 = some (profile_key_of 0 0 1) := by
  have h := C10_register_profile_no_validation engine0 "u" 0 0 0 1 (by decide) (by decide)
  exact ⟨by decide, by decide, h.1⟩

end VMS
